import Mathlib

/-!
Verification of the K_plus_parcer structural parser and metadata extractor.

The Python source (src/parsers/article_parser.py, src/extractors/metadata_extractor.py,
src/models/article.py, src/models/document.py, src/parser.py) is shallowly embedded:
text is `List Char`, the handful of fixed regular expressions used by the code are
embedded as deterministic matchers that follow Python `re` semantics for those
patterns (MULTILINE anchoring, greedy/lazy runs, the whitespace class crossing
newlines), and the one place the code can raise (`datetime(year, month, day)` in the
textual-date branch) is modelled with `Except`.

Notes on fidelity of the character classes: Python `\s` and `str.strip()` accept a
few exotic Unicode whitespace characters beyond the six ASCII ones modelled here,
and `\w` accepts all Unicode letters while we model ASCII alphanumerics, the
underscore and the Cyrillic block actually used by the patterns.  No input in this
development uses characters outside that common subset.
-/

/-- Python whitespace class `\s` restricted to its ASCII members. -/
def isPySpace (c : Char) : Bool :=
  c = ' ' || c = '\t' || c = '\n' || c = '\r' || c = '\x0b' || c = '\x0c'

/-- ASCII decimal digit, the `\d` class for the inputs at hand. -/
def isDigitCh (c : Char) : Bool :=
  '0' ≤ c && c ≤ '9'

/-- Cyrillic letter (the basic block а..я / А..Я plus ё/Ё). -/
def isCyr (c : Char) : Bool :=
  (0x410 ≤ c.toNat && c.toNat ≤ 0x44F) || c.toNat = 0x401 || c.toNat = 0x451

/-- ASCII letter. -/
def isAsciiLetter (c : Char) : Bool :=
  ('a' ≤ c && c ≤ 'z') || ('A' ≤ c && c ≤ 'Z')

/-- Python `\w` on the character set used by the source patterns. -/
def isWordCh (c : Char) : Bool :=
  isAsciiLetter c || isDigitCh c || c = '_' || isCyr c

/-- `str.upper()` on one character, for ASCII and the Cyrillic block. -/
def toUpperRu (c : Char) : Char :=
  if 'a' ≤ c && c ≤ 'z' then Char.ofNat (c.toNat - 32)
  else if 0x430 ≤ c.toNat && c.toNat ≤ 0x44F then Char.ofNat (c.toNat - 32)
  else if c.toNat = 0x451 then Char.ofNat 0x401
  else c

/-- `str.upper()`. -/
def mapUpper (s : List Char) : List Char :=
  s.map toUpperRu

/-- Case-insensitive character comparison (re.IGNORECASE). -/
def ciEq (a b : Char) : Bool :=
  toUpperRu a = toUpperRu b

/-- A character is cased if `upper`/`lower` act on it (ASCII or Cyrillic letter). -/
def isCased (c : Char) : Bool :=
  isAsciiLetter c || isCyr c

/-- Python `str.isupper()`: at least one cased character and no cased lowercase one. -/
def pyIsUpper (s : List Char) : Bool :=
  s.any isCased && s.all (fun c => !isCased c || toUpperRu c = c)

/-- Python `str.strip()` (whitespace from both ends). -/
def pyStrip (s : List Char) : List Char :=
  ((s.dropWhile isPySpace).reverse.dropWhile isPySpace).reverse

/-- Python `str.split('\n')`. -/
def splitLines : List Char → List (List Char)
  | [] => [[]]
  | c :: rest =>
    if c = '\n' then [] :: splitLines rest
    else
      match splitLines rest with
      | [] => [[c]]
      | h :: t => (c :: h) :: t

/-- `sep.join(xs)` for a one-character separator. -/
def joinWith (sep : Char) (xs : List (List Char)) : List Char :=
  List.intercalate [sep] xs

/-- Match a literal at the head of the input, returning the rest. -/
def dropLit : List Char → List Char → Option (List Char)
  | [], s => some s
  | _ :: _, [] => none
  | l :: ls, c :: cs => if c = l then dropLit ls cs else none

/-- Case-insensitive literal match at the head of the input. -/
def dropLitCI : List Char → List Char → Option (List Char)
  | [], s => some s
  | _ :: _, [] => none
  | l :: ls, c :: cs => if ciEq c l then dropLitCI ls cs else none

/-- Greedy run of a character class: `(takeWhile, dropWhile)`. -/
def munch (p : Char → Bool) (s : List Char) : List Char × List Char :=
  (s.takeWhile p, s.dropWhile p)

/-- Is `sub` a contiguous substring of `hay` (Python `sub in hay`)? -/
def containsSub (sub hay : List Char) : Bool :=
  (dropLit sub hay).isSome ||
    match hay with
    | [] => false
    | _ :: t => containsSub sub t

/-- `int()` on a run of decimal digits. -/
def strToNat (s : List Char) : Nat :=
  s.foldl (fun acc c => 10 * acc + (c.toNat - 48)) 0

/-!
### The ArticleParser patterns (src/parsers/article_parser.py)

`ARTICLE_PATTERN = r'^Статья\s+(\d+(?:\.\d+)?)\.\s*(.+?)$'` (MULTILINE)
`CHAPTER_PATTERN = r'^(Глава|Раздел)\s+([IVXLCDM]+|\d+)\.\s*(.+?)$'` (MULTILINE)
`PART_PATTERN    = r'^(\d+)\.\s+(.+?)$'`
`SUBPART_PATTERN = r'^\d+\)\s+.+'`

For `\s*(.+?)$` under MULTILINE the lazy group captures from the first position the
greedy `\s*` can stop at up to the next newline or end of input; when the input ends
in whitespace the engine backtracks `\s*` so that the group captures the last
whitespace character that is not a newline.  `matchTailTitle` implements exactly
that, returning the captured group and the remainder after the match end.
-/

/-- The `\s*(.+?)$` tail shared by the article and chapter patterns. -/
def matchTailTitle (s : List Char) : Option (List Char × List Char) :=
  let ws := s.takeWhile isPySpace
  let s5 := s.dropWhile isPySpace
  match s5 with
  | _ :: _ => some (s5.takeWhile (fun c => c ≠ '\n'), s5.dropWhile (fun c => c ≠ '\n'))
  | [] =>
    -- input exhausted after the whitespace run: backtrack to the last
    -- non-newline whitespace character, which becomes the captured group
    let revTail := ws.reverse.takeWhile (fun c => c = '\n')
    match ws.reverse.dropWhile (fun c => c = '\n') with
    | [] => none
    | c :: _ => some ([c], revTail.reverse)

/-- `^Статья\s+(\d+(?:\.\d+)?)\.\s*(.+?)$` at the current position: returns
(article number group, raw title group, remainder after match end). -/
def tryMatchArticle (s : List Char) : Option ((List Char × List Char) × List Char) := do
  let s0 ← dropLit "Статья".toList s
  let ws := s0.takeWhile isPySpace
  let s1 := s0.dropWhile isPySpace
  if ws = [] then none else
  let d1 := s1.takeWhile isDigitCh
  let s2 := s1.dropWhile isDigitCh
  if d1 = [] then none else
  -- optional (\.\d+) followed by the mandatory literal '.';
  -- if the optional group succeeds but the literal dot does not follow,
  -- the engine backtracks to the version without the optional group
  let optNum : Option (List Char × List Char) :=
    match s2 with
    | '.' :: s2' =>
      let d2 := s2'.takeWhile isDigitCh
      let s2'' := s2'.dropWhile isDigitCh
      if d2 = [] then some (d1, s2')
      else
        match s2'' with
        | '.' :: s4 => some (d1 ++ '.' :: d2, s4)
        | _ => some (d1, s2')
    | _ => none
  let (num, s3) ← optNum
  let (title, rest) ← matchTailTitle s3
  return ((num, title), rest)

/-- `^(Глава|Раздел)\s+([IVXLCDM]+|\d+)\.\s*(.+?)$` at the current position:
returns (numeral group, raw title group, remainder after match end). -/
def tryMatchChapter (s : List Char) : Option ((List Char × List Char) × List Char) := do
  let s0 ← (dropLit "Глава".toList s).orElse (fun _ => dropLit "Раздел".toList s)
  let ws := s0.takeWhile isPySpace
  let s1 := s0.dropWhile isPySpace
  if ws = [] then none else
  let isRoman : Char → Bool := fun c => c ∈ ['I', 'V', 'X', 'L', 'C', 'D', 'M']
  let rom := s1.takeWhile isRoman
  let (num, s2) ←
    if rom ≠ [] then
      -- the alternative [IVXLCDM]+ is tried first; shorter runs cannot be
      -- followed by the literal '.', so the greedy run is definitive
      match s1.dropWhile isRoman with
      | '.' :: s2 => some (rom, s2)
      | _ => none
    else
      let dig := s1.takeWhile isDigitCh
      if dig = [] then none else
      match s1.dropWhile isDigitCh with
      | '.' :: s2 => some (dig, s2)
      | _ => none
  let (title, rest) ← matchTailTitle s2
  return ((num, title), rest)

/-- `PART_PATTERN.match(line)` on a single line (no newline inside): returns
(part number, captured text). -/
def pyPartMatch (line : List Char) : Option (Nat × List Char) :=
  let d := line.takeWhile isDigitCh
  let s1 := line.dropWhile isDigitCh
  if d = [] then none else
  match s1 with
  | '.' :: s2 =>
    let ws := s2.takeWhile isPySpace
    let s3 := s2.dropWhile isPySpace
    if ws = [] then none else
    match s3 with
    | _ :: _ => some (strToNat d, s3)
    | [] =>
      -- trailing whitespace only: `\s+` backtracks, `(.+?)$` captures the
      -- last whitespace character unless it is a newline
      match ws.reverse.dropWhile (fun c => c = '\n') with
      | [] => none
      | c :: _ => some (strToNat d, [c])
  | _ => none

/-- `re.match(SUBPART_PATTERN, line)` on a single line. -/
def pySubpartMatch (line : List Char) : Bool :=
  let d := line.takeWhile isDigitCh
  let s1 := line.dropWhile isDigitCh
  if d = [] then false else
  match s1 with
  | ')' :: s2 =>
    let ws := s2.takeWhile isPySpace
    let s3 := s2.dropWhile isPySpace
    if ws = [] then false else
    match s3 with
    | _ :: _ => true
    | [] => decide (2 ≤ ws.length) && (ws.reverse.dropWhile (fun c => c = '\n')).length ≥ 1
  | _ => false

/-!
### Scanning: `re.search` and `re.finditer` for the MULTILINE-anchored patterns

`findPre p s ls` returns the characters before the first line-start position at
which the predicate `p` holds on the suffix (`ls` says whether the current position
is a line start), i.e. `text[:match.start()]` of `re.search`; `none` when there is
no match.  `scanF` is `re.finditer` together with the span slicing done by
`_parse_with_chapters` / `_parse_articles_from_text`: it yields each match's groups
paired with the text between that match's end and the next match's start (the last
match is paired with the rest of the text).  Scanning resumes at a match's end,
exactly as `finditer` does.  `scanF` uses fuel so that it evaluates by `rfl`; the
initial fuel `s.length` always suffices because every step consumes input.
-/

/-- Characters preceding the first line-start match of `p` (`re.search` prefix). -/
def findPre (p : List Char → Bool) : List Char → Bool → Option (List Char)
  | [], _ => none
  | c :: cs, ls =>
    if ls && p (c :: cs) then some []
    else (findPre p cs (c = '\n')).map (c :: ·)

/-- Fueled `finditer` scan; `m` returns a match's groups and the remainder after
the match end. -/
def scanF (m : List Char → Option (α × List Char)) :
    Nat → List Char → Bool → List Char × List (α × List Char)
  | 0, _, _ => ([], [])
  | _ + 1, [], _ => ([], [])
  | f + 1, c :: cs, ls =>
    match (if ls then m (c :: cs) else none) with
    | some (h, rest) =>
      let (sp, segs) := scanF m f rest false
      ([], (h, sp) :: segs)
    | none =>
      let (pre, segs) := scanF m f cs (c = '\n')
      (c :: pre, segs)

/-- `finditer` from the start of `s` (position 0 is a line start). -/
def scanM (m : List Char → Option (α × List Char)) (s : List Char) :
    List Char × List (α × List Char) :=
  scanF m s.length s true

/-- First match of `m` at any position (unanchored `re.search`). -/
def findFirst (m : List Char → Option α) : List Char → Option α
  | [] => m []
  | c :: cs =>
    match m (c :: cs) with
    | some r => some r
    | none => findFirst m cs

/-!
### Data model (src/models/article.py, metadata.py, document.py)

The pydantic models are plain records: none of them carries a validator that
constrains the collection fields, so every field combination is constructible.
`DocumentMetadata.date` is `Option PyDate`: `none` stands for the
`datetime.now()` "unknown date" fallback the code stores when extraction found
no date.
-/

/-- A calendar date as `datetime(year, month, day)` stores it. -/
structure PyDate where
  year : Nat
  month : Nat
  day : Nat
deriving DecidableEq, Repr

/-- `ArticlePart` (src/models/article.py). -/
structure ArticlePart where
  number : Nat
  text : List Char
  subparts : List (List Char)
deriving DecidableEq, Repr

/-- `Article` (src/models/article.py). -/
structure Article where
  number : List Char
  title : List Char
  parts : List ArticlePart
  full_text : List Char
  chapter_number : Option Int
  chapter_title : Option (List Char)
deriving DecidableEq, Repr

/-- `Chapter` (src/models/article.py). -/
structure Chapter where
  number : Int
  title : List Char
  articles : List Article
deriving DecidableEq, Repr

/-- `DocumentMetadata` (src/models/metadata.py). -/
structure DocumentMetadata where
  doc_type : List Char
  number : List Char
  date : Option PyDate
  title : List Char
  authority : Option (List Char)
  status : List Char
  version_date : Option PyDate
  categories : List (List Char)
  references : List (List Char)
  source : List Char
deriving DecidableEq, Repr

/-- `NPADocument` (src/models/document.py): `chapters` and `articles` are two
independent list fields with empty-list defaults and no cross-field validator. -/
structure NPADocument where
  metadata : DocumentMetadata
  preamble : List Char
  chapters : List Chapter
  articles : List Article
  raw_text : List Char
  source_file : Option (List Char)
deriving DecidableEq, Repr

/-- The `doc_type` field validator: `v.upper().strip()`. -/
def validateDocType (v : List Char) : List Char :=
  pyStrip (mapUpper v)

/-- The `status` field validator: lower-case and coerce to the closed set. -/
def validateStatus (v : List Char) : List Char :=
  let lower := v
  if lower = "действующий".toList || lower = "утративший силу".toList
      || lower = "проект".toList then lower
  else "действующий".toList

/-!
### ArticleParser (src/parsers/article_parser.py)
-/

/-- `roman_values.get(char, 0)`. -/
def romanValues (c : Char) : Nat :=
  if c = 'I' then 1 else if c = 'V' then 5 else if c = 'X' then 10
  else if c = 'L' then 50 else if c = 'C' then 100 else if c = 'D' then 500
  else if c = 'M' then 1000 else 0

/-- The loop body of `_roman_to_int`: state is `(total, prev_value)` and the
list is the numeral already reversed (`for char in reversed(roman)`). -/
def romanGo : List Char → Int × Nat → Int × Nat
  | [], acc => acc
  | c :: rest, (t, p) =>
    let v := romanValues c
    romanGo rest (if v < p then t - v else t + v, v)

/-- `_roman_to_int` (src/parsers/article_parser.py lines 229-255). -/
def romanToInt (s : List Char) : Int :=
  (romanGo s.reverse (0, 0)).1

/-- The state of the `_parse_article_parts` loop: the currently open part as
`(current_part_number, current_part_text, subparts)`, when one is open. -/
abbrev PartState := Option (Nat × List (List Char) × List (List Char))

/-- Flush an open part: `ArticlePart(number, ' '.join(texts), subparts)`. -/
def flushPart (st : Nat × List (List Char) × List (List Char)) : ArticlePart :=
  ⟨st.1, joinWith ' ' st.2.1, st.2.2⟩

/-- The line loop of `_parse_article_parts`, including the final flush. -/
def partsLoop : List (List Char) → PartState → List ArticlePart
  | [], none => []
  | [], some st => [flushPart st]
  | l :: rest, st =>
    let line := pyStrip l
    if line = [] then partsLoop rest st
    else
      match pyPartMatch line with
      | some (n, t) =>
        match st with
        | none => partsLoop rest (some (n, [t], []))
        | some st' => flushPart st' :: partsLoop rest (some (n, [t], []))
      | none =>
        match st with
        | none => partsLoop rest none
        | some (n, ts, sps) =>
          if pySubpartMatch line then partsLoop rest (some (n, ts, sps ++ [line]))
          else partsLoop rest (some (n, ts ++ [line], sps))

/-- `_parse_article_parts`. -/
def parseArticleParts (text : List Char) : List ArticlePart :=
  let parts := partsLoop (splitLines text) none
  if parts = [] then [⟨1, text, []⟩] else parts

/-- `_parse_articles_from_text`: article spans found by `finditer`, each span
stripped, split into parts, and stamped with the enclosing chapter. -/
def parseArticlesFromText (text : List Char) (chapterNumber : Option Int)
    (chapterTitle : Option (List Char)) : List Article :=
  (scanM tryMatchArticle text).2.map fun seg =>
    let articleText := pyStrip seg.2
    { number := seg.1.1
      title := pyStrip seg.1.2
      parts := parseArticleParts articleText
      full_text := articleText
      chapter_number := chapterNumber
      chapter_title := chapterTitle }

/-- `_parse_with_chapters`: one `Chapter` per chapter match, the numeral
normalized via `_roman_to_int` when `isupper()` and via `int` otherwise. -/
def parseWithChapters (text : List Char) : List Chapter :=
  (scanM tryMatchChapter text).2.map fun seg =>
    let numStr := seg.1.1
    let chapterNumber : Int :=
      if pyIsUpper numStr then romanToInt numStr else (strToNat numStr : Int)
    let chapterTitle := pyStrip seg.1.2
    { number := chapterNumber
      title := chapterTitle
      articles := parseArticlesFromText seg.2 (some chapterNumber) (some chapterTitle) }

/-- `bool(self.chapter_regex.search(text))`. -/
def hasChapterHeader (text : List Char) : Bool :=
  (findPre (fun s => (tryMatchChapter s).isSome) text true).isSome

/-- `ArticleParser.parse` (lines 42-66): chapters-or-flat tagged by the chapter
search. -/
def articleParserParse (text : List Char) : List Chapter × List Article :=
  if hasChapterHeader text then (parseWithChapters text, [])
  else ([], parseArticlesFromText text none none)

/-- All articles of a parse result: the flat list plus every chapter's list. -/
def docArticles (p : List Chapter × List Article) : List Article :=
  p.2 ++ (p.1.map Chapter.articles).flatten

/-!
### MetadataExtractor (src/extractors/metadata_extractor.py)

All patterns are compiled with `re.IGNORECASE | re.DOTALL`.  The `doc_type` and
`authority` patterns are ordered alternations of literals; the number/date
patterns are linear and deterministic for the reasons noted at each matcher
(backtracking can never rescue a failed branch).  The textual-date branch of
`_extract_number_and_date` constructs `datetime(year, month, day)` with no
try/except, so a calendar-invalid date raises `ValueError` out of `extract`;
this is the `Except.error` case.  The numeric-date branch wraps `strptime` in
try/except and treats an invalid date as a non-match.
-/

/-- Try an ordered alternation of case-insensitive literals, returning the text
actually matched (the slice of the input, as `match.group(1)` would). -/
def firstAltCI (alts : List (List Char)) (s : List Char) : Option (List Char) :=
  match alts with
  | [] => none
  | a :: rest =>
    if (dropLitCI a s).isSome then some (s.take a.length) else firstAltCI rest s

/-- The `doc_type` alternation, in source order. -/
def docTypeAlts : List (List Char) :=
  ["ФЕДЕРАЛЬНЫЙ ЗАКОН".toList, "ПОСТАНОВЛЕНИЕ ПРАВИТЕЛЬСТВА РФ".toList,
   "ПОСТАНОВЛЕНИЕ".toList, "ПРИКАЗ".toList, "УКАЗ ПРЕЗИДЕНТА РФ".toList,
   "УКАЗ".toList, "РАСПОРЯЖЕНИЕ".toList]

/-- `_extract_doc_type`: first match of the alternation, upper-cased and
stripped. -/
def extractDocType (text : List Char) : Option (List Char) :=
  (findFirst (firstAltCI docTypeAlts) text).map (fun g => pyStrip (mapUpper g))

/-- The fixed month table `MONTHS`, in source order. -/
def monthsTable : List (List Char × Nat) :=
  [("января".toList, 1), ("февраля".toList, 2), ("марта".toList, 3),
   ("апреля".toList, 4), ("мая".toList, 5), ("июня".toList, 6),
   ("июля".toList, 7), ("августа".toList, 8), ("сентября".toList, 9),
   ("октября".toList, 10), ("ноября".toList, 11), ("декабря".toList, 12)]

/-- Month-name alternation: first case-insensitive match wins, yielding the
month index (`MONTHS.get(name.lower(), 1)` always finds the name). -/
def matchMonth (s : List Char) : Option (Nat × List Char) :=
  monthsTable.firstM fun (name, idx) => (dropLitCI name s).map (fun r => (idx, r))

/-- `[\d-]+[\w-]*`: the document-number group shared by both date patterns. -/
def matchNumberGroup (s : List Char) : Option (List Char × List Char) :=
  let isNumHead : Char → Bool := fun c => isDigitCh c || c = '-'
  let isNumTail : Char → Bool := fun c => isWordCh c || c = '-'
  let r1 := s.takeWhile isNumHead
  let s1 := s.dropWhile isNumHead
  if r1 = [] then none
  else some (r1 ++ s1.takeWhile isNumTail, s1.dropWhile isNumTail)

/-- `number_date_1` = `от\s+(\d{1,2})\s+(january|...)\s+(\d{4})\s*г?\.*\s*N\s*([\d-]+[\w-]*)`
at the current position, yielding `(day, month, year, number)`.  `\d{1,2}` then
`\s+` forces the digit run to have length 1 or 2 and be followed by whitespace;
`(\d{4})` followed by `\s*г?\.*\s*N` forces the year run to have length exactly 4. -/
def matchND1 (s : List Char) : Option (Nat × Nat × Nat × List Char) := do
  let s0 ← dropLitCI "от".toList s
  let ws1 := s0.takeWhile isPySpace
  let s1 := s0.dropWhile isPySpace
  if ws1 = [] then none else
  let dayRun := s1.takeWhile isDigitCh
  let s2 := s1.dropWhile isDigitCh
  if dayRun.length = 0 || dayRun.length > 2 then none else
  let ws2 := s2.takeWhile isPySpace
  let s3 := s2.dropWhile isPySpace
  if ws2 = [] then none else
  let (month, s4) ← matchMonth s3
  let ws3 := s4.takeWhile isPySpace
  let s5 := s4.dropWhile isPySpace
  if ws3 = [] then none else
  let yearRun := s5.takeWhile isDigitCh
  let s6 := s5.dropWhile isDigitCh
  if yearRun.length ≠ 4 then none else
  let s7 := s6.dropWhile isPySpace
  let s8 := match s7 with
            | c :: rest => if ciEq c 'г' then rest else s7
            | [] => s7
  let s9 := s8.dropWhile (fun c => c = '.')
  let s10 := s9.dropWhile isPySpace
  let s11 ← match s10 with
            | c :: rest => if ciEq c 'N' then some rest else none
            | [] => none
  let s12 := s11.dropWhile isPySpace
  let (num, _) ← matchNumberGroup s12
  return (strToNat dayRun, month, strToNat yearRun, num)

/-- `number_date_2` = `от\s+(\d{2}\.\d{2}\.\d{4})\s*N\s*([\d-]+[\w-]*)` at the
current position, yielding `(day, month, year, number)` of the date string that
`strptime('%d.%m.%Y')` will then validate. -/
def matchND2 (s : List Char) : Option (Nat × Nat × Nat × List Char) := do
  let s0 ← dropLitCI "от".toList s
  let ws1 := s0.takeWhile isPySpace
  let s1 := s0.dropWhile isPySpace
  if ws1 = [] then none else
  match s1 with
  | d1 :: d2 :: '.' :: m1 :: m2 :: '.' :: y1 :: y2 :: y3 :: y4 :: s2 =>
    if [d1, d2, m1, m2, y1, y2, y3, y4].all isDigitCh then do
      let s3 := s2.dropWhile isPySpace
      let s4 ← match s3 with
               | c :: rest => if ciEq c 'N' then some rest else none
               | [] => none
      let s5 := s4.dropWhile isPySpace
      let (num, _) ← matchNumberGroup s5
      return (strToNat [d1, d2], strToNat [m1, m2], strToNat [y1, y2, y3, y4], num)
    else none
  | _ => none

/-- Gregorian month length, as `datetime` validates it. -/
def daysInMonth (year month : Nat) : Nat :=
  if month = 2 then
    if year % 4 = 0 && (year % 100 ≠ 0 || year % 400 = 0) then 29 else 28
  else if month = 4 || month = 6 || month = 9 || month = 11 then 30
  else 31

/-- Validity of `datetime(year, month, day)` / `strptime('%d.%m.%Y')`. -/
def dateValid (year month day : Nat) : Bool :=
  1 ≤ year && year ≤ 9999 && 1 ≤ month && month ≤ 12 &&
    1 ≤ day && day ≤ daysInMonth year month

/-- `_extract_number_and_date` (lines 100-132).  `Except.error` is the uncaught
`ValueError` of `datetime(year, month, day)` in the textual-date branch; the
numeric-date branch catches its `ValueError` and falls through to `None, None`. -/
def extractNumberAndDate (text : List Char) :
    Except Unit (Option (List Char) × Option PyDate) :=
  match findFirst matchND1 text with
  | some (day, month, year, num) =>
    if dateValid year month day then .ok (some num, some ⟨year, month, day⟩)
    else .error ()
  | none =>
    match findFirst matchND2 text with
    | some (day, month, year, num) =>
      if dateValid year month day then .ok (some num, some ⟨year, month, day⟩)
      else .ok (none, none)
    | none => .ok (none, none)

/-- `(.+?)(?:\n\n|$)` under DOTALL: the lazy group stops at the first point
followed by a blank-line pair, by the end of input, or by a final newline. -/
def titleStop (rest : List Char) : Bool :=
  match rest with
  | [] => true
  | ['\n'] => true
  | '\n' :: '\n' :: _ => true
  | _ => false

/-- The captured group of `(.+?)(?:\n\n|$)` from the given remainder. -/
def titleTake : List Char → Option (List Char)
  | [] => none
  | c :: rest =>
    if titleStop rest then some [c] else (titleTake rest).map (c :: ·)

/-- `.*?\n\n(.+?)(?:\n\n|$)`: lazily advance to each blank-line pair and take
the first one after which the group can match. -/
def firstTitleBlock : List Char → Option (List Char)
  | [] => none
  | '\n' :: '\n' :: r =>
    (match titleTake r with
     | some g => some g
     | none => firstTitleBlock ('\n' :: r))
  | _ :: rest => firstTitleBlock rest

/-- The doc-type alternation of the `title` pattern (shorter than `docTypeAlts`). -/
def titleTypeAlts : List (List Char) :=
  ["ФЕДЕРАЛЬНЫЙ ЗАКОН".toList, "ПОСТАНОВЛЕНИЕ".toList, "ПРИКАЗ".toList,
   "УКАЗ".toList, "РАСПОРЯЖЕНИЕ".toList]

/-- The whole `title` pattern at the current position. -/
def matchTitlePat (s : List Char) : Option (List Char) := do
  let a ← firstAltCI titleTypeAlts s
  firstTitleBlock (s.drop a.length)

/-- `re.sub(r'\s+', ' ', s)`: collapse every whitespace run to one space. -/
def collapseGo : List Char → Bool → List Char
  | [], _ => []
  | c :: rest, prevWs =>
    if isPySpace c then
      if prevWs then collapseGo rest true else ' ' :: collapseGo rest true
    else c :: collapseGo rest false

/-- `title.strip('"')`. -/
def stripQuotes (s : List Char) : List Char :=
  ((s.dropWhile (fun c => c = '"')).reverse.dropWhile (fun c => c = '"')).reverse

/-- `_extract_title` (lines 134-144). -/
def extractTitle (text : List Char) : Option (List Char) :=
  (findFirst matchTitlePat text).map fun g =>
    stripQuotes (collapseGo (pyStrip g) false)

/-- The `authority` alternation, in source order. -/
def authorityAlts : List (List Char) :=
  ["Государственная Дума".toList, "Правительство Российской Федерации".toList,
   "Правительство РФ".toList, "Президент Российской Федерации".toList,
   "Президент РФ".toList]

/-- `_extract_authority` (lines 146-151). -/
def extractAuthority (text : List Char) : Option (List Char) :=
  (findFirst (firstAltCI authorityAlts) text).map pyStrip

/-- `MetadataExtractor.extract` (lines 62-91), with the pydantic validators of
`DocumentMetadata` applied on construction.  `date = none` models the
`datetime.now()` fallback stored when no date was extracted. -/
def metadataExtract (text : List Char) (fallbackTitle : List Char) :
    Except Unit DocumentMetadata := do
  let docType := extractDocType text
  let (number, date) ← extractNumberAndDate text
  let title := (extractTitle text).getD fallbackTitle
  let authority := extractAuthority text
  return { doc_type := validateDocType (docType.getD "ДОКУМЕНТ".toList)
           number := number.getD "N/A".toList
           date := date
           title := title
           authority := authority
           status := validateStatus "действующий".toList
           version_date := none
           categories := []
           references := []
           source := "КонсультантПлюс".toList }

/-!
### Document queries (src/models/document.py, article.py) and preamble
extraction (src/parser.py)
-/

/-- `Article.get_token_estimate`: `len(full_text)` when truthy, else the summed
part-text lengths, floor-divided by 4. -/
def getTokenEstimate (a : Article) : Nat :=
  (if a.full_text ≠ [] then a.full_text.length
   else (a.parts.map (fun p => p.text.length)).sum) / 4

/-- The dict returned by `NPADocument.get_statistics`. -/
structure Statistics where
  chapters : Nat
  articles : Nat
  estimated_tokens : Nat
  has_preamble : Bool
  doc_type : List Char
  status : List Char
deriving DecidableEq, Repr

/-- `NPADocument.get_statistics` (lines 110-137); `if self.articles` is Python
truthiness, i.e. non-emptiness. -/
def getStatistics (d : NPADocument) : Statistics :=
  let totalArticles :=
    if d.articles ≠ [] then d.articles.length
    else (d.chapters.map (fun ch => ch.articles.length)).sum
  let totalTokens :=
    if d.articles ≠ [] then (d.articles.map getTokenEstimate).sum
    else (d.chapters.map (fun ch => (ch.articles.map getTokenEstimate).sum)).sum
  { chapters := d.chapters.length
    articles := totalArticles
    estimated_tokens := totalTokens
    has_preamble := d.preamble ≠ []
    doc_type := d.metadata.doc_type
    status := d.metadata.status }

/-- `re.search(r'^Статья\s+\d+', text, re.MULTILINE)` viewed as a predicate on
the suffix at a line start. -/
def preArticleHere (s : List Char) : Bool :=
  match dropLit "Статья".toList s with
  | none => false
  | some s0 =>
    let ws := s0.takeWhile isPySpace
    let s1 := s0.dropWhile isPySpace
    ws ≠ [] && (match s1 with | c :: _ => isDigitCh c | [] => false)

/-- `re.search(r'^(Глава|Раздел)\s+', text, re.MULTILINE)` viewed as a predicate
on the suffix at a line start. -/
def preChapterHere (s : List Char) : Bool :=
  match (dropLit "Глава".toList s).orElse (fun _ => dropLit "Раздел".toList s) with
  | none => false
  | some s0 => s0.takeWhile isPySpace ≠ []

/-- The post-processing `_extract_preamble` applies to `text[:first_match.start()]`:
strip, split into lines, drop the first five lines when there are more than
five, re-join and strip. -/
def preamblePost (p : List Char) : List Char :=
  let lines := splitLines (pyStrip p)
  let kept := if lines.length > 5 then lines.drop 5 else lines
  pyStrip (joinWith '\n' kept)

/-- `NPAParser._extract_preamble` (src/parser.py lines 120-153): search for the
first article header and the first chapter header, take the match with the
smaller start (the article one on a tie, per `min` over the ordered list), and
post-process the text before it. -/
def extractPreamble (text : List Char) : List Char :=
  match findPre preArticleHere text true, findPre preChapterHere text true with
  | none, none => []
  | some a, none => preamblePost a
  | none, some c => preamblePost c
  | some a, some c => preamblePost (if a.length ≤ c.length then a else c)

/-!
### Specification-side definitions

These follow the words of the specification / claims rather than the code, and
exist only to be compared with the code-derived definitions above.
-/

/-- Modelled from the spec (claim C9's words): the preamble is the text of the
input that precedes the first structural header — the first line-anchored
article or chapter/section header — post-processed exactly as the code does,
with a single combined first-header search. -/
def specPreamble (text : List Char) : List Char :=
  match findPre (fun s => preArticleHere s || preChapterHere s) text true with
  | none => []
  | some p => preamblePost p

/-- Modelled from the spec (claim C4's words, amended): scanning right to left,
a symbol's value is subtracted exactly when the symbol immediately to its right
has a strictly larger value. -/
def romanNeighborSpec : List Char → Int
  | [] => 0
  | [c] => (romanValues c : Int)
  | c1 :: c2 :: rest =>
    (if romanValues c1 < romanValues c2 then -(romanValues c1 : Int)
     else (romanValues c1 : Int)) + romanNeighborSpec (c2 :: rest)

/-- Modelled from the spec (claim C4's words, as stated): a symbol's value is
subtracted whenever some larger-valued symbol occurs anywhere to its right. -/
def romanClaimSpec : List Char → Int
  | [] => 0
  | c :: rest =>
    (if rest.any (fun d => romanValues c < romanValues d) then
       -(romanValues c : Int)
     else (romanValues c : Int)) + romanClaimSpec rest

/-!
### Concrete inputs and values used by the claims
-/

/-- The worked example of §8 of the specification. -/
def c6text : List Char :=
  "Статья 1. Т\n\n1. Текст один.\n\n2. Текст два.\n   1) под.".toList

/-- The article span of the worked example (the text after the header, stripped). -/
def c6span : List Char :=
  "1. Текст один.\n\n2. Текст два.\n   1) под.".toList

/-- A plain metadata value for constructing documents. -/
def exMeta : DocumentMetadata :=
  { doc_type := "ФЕДЕРАЛЬНЫЙ ЗАКОН".toList
    number := "44-ФЗ".toList
    date := some ⟨2013, 4, 5⟩
    title := "О контрактной системе".toList
    authority := none
    status := "действующий".toList
    version_date := none
    categories := []
    references := []
    source := "КонсультантПлюс".toList }

/-- A minimal article with one part. -/
def exArticle : Article :=
  { number := "1".toList
    title := "Т".toList
    parts := [⟨1, "текст".toList, []⟩]
    full_text := "текст".toList
    chapter_number := none
    chapter_title := none }

/-- A document whose `chapters` and `articles` fields are simultaneously
non-empty: the pydantic model accepts it, since nothing constrains the pair. -/
def bothDoc : NPADocument :=
  { metadata := exMeta
    preamble := []
    chapters := [⟨1, "Г".toList, [exArticle]⟩]
    articles := [exArticle]
    raw_text := []
    source_file := none }

/-- The chapter-structured statistics example: chapters of 3 and 5 articles,
empty flat list. -/
def exDoc : NPADocument :=
  { metadata := exMeta
    preamble := "п".toList
    chapters := [⟨1, "А".toList, List.replicate 3 exArticle⟩,
                 ⟨2, "Б".toList, List.replicate 5 exArticle⟩]
    articles := []
    raw_text := []
    source_file := none }

/-- A flat one-article input used to witness the part-count invariant. -/
def c5text : List Char := "Статья 1. Т\nтекст".toList

/-- The article that `articleParserParse c5text` produces. -/
def c5article : Article :=
  { number := "1".toList
    title := "Т".toList
    parts := [⟨1, "текст".toList, []⟩]
    full_text := "текст".toList
    chapter_number := none
    chapter_title := none }

/-- Canonical 44-ФЗ prefix for claim C7. -/
def c7text : List Char :=
  "ФЕДЕРАЛЬНЫЙ ЗАКОН от 5 апреля 2013 г. N 44-ФЗ".toList

/-- A prefix containing the same two substrings but preceded by another
doc-type token, for the C7 counterexample. -/
def c7badText : List Char :=
  "УКАЗ\nФЕДЕРАЛЬНЫЙ ЗАКОН от 5 апреля 2013 г. N 44-ФЗ".toList

/-- A prefix whose textual date is calendar-invalid: `datetime(2024, 2, 31)`
raises. -/
def c1raiseText : List Char :=
  "от 31 февраля 2024 г. N 1-ФЗ".toList

/-- A prefix whose numeric date is calendar-invalid: `strptime` raises, the
branch catches it and falls through to the sentinel. -/
def c1numText : List Char :=
  "от 31.02.2024 N 1-ФЗ".toList

/-- A text whose preamble (the text before the first header) spans six lines. -/
def c9text : List Char :=
  "a\nb\nc\nd\ne\nf\nСтатья 1. Т".toList

/-- A chaptered input used to witness claim C3. -/
def c3chapText : List Char :=
  "Глава 1. О\nСтатья 1. Т\nтекст".toList

/-- A headerless input used to witness claim C3. -/
def c3flatText : List Char := "просто текст".toList

/-- Right-to-left processing with the previous symbol's value as state: the
functional reading of the `_roman_to_int` loop. -/
def romanRight : List Char → Nat → Int
  | [], _ => 0
  | c :: rest, p =>
    (if romanValues c < p then -(romanValues c : Int) else (romanValues c : Int)) +
      romanRight rest (romanValues c)

/-- The value of the last symbol of `l`, defaulting to `p`. -/
def lastValue (l : List Char) (p : Nat) : Nat :=
  match l.getLast? with
  | some d => romanValues d
  | none => p

/-- Merge two `re.search` results as `min(matches, key=start)` does, preferring
the first argument on a tie. -/
def mergeOpt : Option (List Char) → Option (List Char) → Option (List Char)
  | none, none => none
  | some a, none => some a
  | none, some c => some c
  | some a, some c => some (if a.length ≤ c.length then a else c)

/-!
### Helper lemmas
-/

theorem scanF_zero (m : List Char → Option (α × List Char)) (s : List Char)
    (ls : Bool) : scanF m 0 s ls = ([], []) := by
  cases s <;> rfl

theorem scanF_nil (m : List Char → Option (α × List Char)) (f : Nat) (ls : Bool) :
    scanF m (f + 1) [] ls = ([], []) := rfl

theorem scanF_cons_false (m : List Char → Option (α × List Char)) (f : Nat)
    (c : Char) (cs : List Char) :
    scanF m (f + 1) (c :: cs) false =
      ((c :: (scanF m f cs (c = '\n')).1, (scanF m f cs (c = '\n')).2)) := rfl

theorem scanF_cons_some (m : List Char → Option (α × List Char)) (f : Nat)
    (c : Char) (cs : List Char) (a : α) (rest : List Char)
    (h : m (c :: cs) = some (a, rest)) :
    scanF m (f + 1) (c :: cs) true =
      ([], (a, (scanF m f rest false).1) :: (scanF m f rest false).2) := by
  simp [scanF, h]

theorem scanF_cons_none (m : List Char → Option (α × List Char)) (f : Nat)
    (c : Char) (cs : List Char) (h : m (c :: cs) = none) :
    scanF m (f + 1) (c :: cs) true =
      ((c :: (scanF m f cs (c = '\n')).1, (scanF m f cs (c = '\n')).2)) := by
  simp [scanF, h]

/-- `re.search` succeeds exactly when `re.finditer` yields at least one match:
the search predicate and the segment scan agree. -/
theorem findPre_isSome_iff_scanF (m : List Char → Option (α × List Char)) :
    ∀ (f : Nat) (s : List Char) (ls : Bool), s.length ≤ f →
      ((findPre (fun u => (m u).isSome) s ls).isSome ↔ (scanF m f s ls).2 ≠ []) := by
  intro f
  induction f with
  | zero =>
    intro s ls hs
    have hnil : s = [] := List.length_eq_zero.mp (Nat.le_zero.mp hs)
    subst hnil
    simp [findPre, scanF_zero]
  | succ f ih =>
    intro s ls hs
    cases s with
    | nil => simp [findPre, scanF_nil]
    | cons c cs =>
      have hcs : cs.length ≤ f := by simpa using hs
      cases ls with
      | false =>
        rw [scanF_cons_false]
        simpa [findPre] using ih cs (c = '\n') hcs
      | true =>
        cases hm : m (c :: cs) with
        | some p =>
          rw [scanF_cons_some m f c cs p.1 p.2 (by simpa using hm)]
          simp [findPre, hm]
        | none =>
          rw [scanF_cons_none m f c cs hm]
          simpa [findPre, hm] using ih cs (c = '\n') hcs

/-- A line that strips blank or fails the part pattern leaves the open-part
state `none` untouched. -/
theorem partsLoop_cons_skip (l : List Char) (rest : List (List Char))
    (h : pyPartMatch (pyStrip l) = none) :
    partsLoop (l :: rest) none = partsLoop rest none := by
  by_cases hl : pyStrip l = [] <;> simp [partsLoop, hl, h]

theorem partsLoop_append_nomatch (pre : List (List Char)) :
    ∀ post : List (List Char), (∀ l ∈ pre, pyPartMatch (pyStrip l) = none) →
      partsLoop (pre ++ post) none = partsLoop post none := by
  induction pre with
  | nil => intro post _; rfl
  | cons l rest ih =>
    intro post h
    rw [List.cons_append, partsLoop_cons_skip l _ (h l (by simp))]
    exact ih post (fun x hx => h x (by simp [hx]))

theorem partsLoop_nil_of_nomatch (lines : List (List Char))
    (h : ∀ l ∈ lines, pyPartMatch (pyStrip l) = none) :
    partsLoop lines none = [] := by
  induction lines with
  | nil => rfl
  | cons l rest ih =>
    rw [partsLoop_cons_skip l _ (h l (by simp))]
    exact ih (fun x hx => h x (by simp [hx]))

theorem parseArticleParts_of_nomatch (span : List Char)
    (h : ∀ l ∈ splitLines span, pyPartMatch (pyStrip l) = none) :
    parseArticleParts span = [⟨1, span, []⟩] := by
  unfold parseArticleParts
  rw [partsLoop_nil_of_nomatch _ h]
  rfl

theorem parseArticleParts_ne_nil (t : List Char) : parseArticleParts t ≠ [] := by
  unfold parseArticleParts
  by_cases h : partsLoop (splitLines t) none = [] <;> simp [h]

/-- Every article built by `_parse_articles_from_text` carries parts computed
from its own (stripped) span, hence at least one part. -/
theorem mem_parseArticlesFromText (art : Article) (t : List Char)
    (cn : Option Int) (ct : Option (List Char))
    (h : art ∈ parseArticlesFromText t cn ct) :
    art.parts = parseArticleParts art.full_text ∧ art.parts ≠ [] := by
  unfold parseArticlesFromText at h
  obtain ⟨seg, _, rfl⟩ := List.mem_map.mp h
  exact ⟨rfl, parseArticleParts_ne_nil _⟩

/-- Every article of a parse result comes from some `_parse_articles_from_text`
call. -/
theorem mem_docArticles_parse (art : Article) (text : List Char)
    (h : art ∈ docArticles (articleParserParse text)) :
    ∃ t cn ct, art ∈ parseArticlesFromText t cn ct := by
  unfold articleParserParse at h
  by_cases hc : hasChapterHeader text
  · simp only [hc, if_pos] at h
    unfold docArticles at h
    simp only [List.nil_append] at h
    obtain ⟨as, has, hart⟩ := List.mem_flatten.mp h
    obtain ⟨ch, hch, rfl⟩ := List.mem_map.mp has
    unfold parseWithChapters at hch
    obtain ⟨seg, _, rfl⟩ := List.mem_map.mp hch
    exact ⟨_, _, _, hart⟩
  · rw [if_neg hc] at h
    unfold docArticles at h
    simp only [List.map_nil, List.flatten_nil, List.append_nil] at h
    exact ⟨_, _, _, h⟩

theorem romanGo_spec : ∀ (l : List Char) (t : Int) (p : Nat),
    (romanGo l (t, p)).1 = t + romanRight l p := by
  intro l
  induction l with
  | nil => intro t p; simp [romanGo, romanRight]
  | cons c rest ih =>
    intro t p
    show (romanGo rest (if romanValues c < p then t - romanValues c
        else t + romanValues c, romanValues c)).1 = _
    rw [ih]
    show _ = t + ((if romanValues c < p then -(romanValues c : Int)
        else (romanValues c : Int)) + romanRight rest (romanValues c))
    by_cases h : romanValues c < p <;> simp [h] <;> ring

theorem romanRight_append (c : Char) :
    ∀ (l : List Char) (p : Nat),
      romanRight (l ++ [c]) p =
        romanRight l p +
          (if romanValues c < lastValue l p then -(romanValues c : Int)
           else (romanValues c : Int)) := by
  intro l
  induction l with
  | nil =>
    intro p
    show (if romanValues c < p then _ else _) + romanRight [] (romanValues c) = _
    simp [romanRight, lastValue]
  | cons d ds ih =>
    intro p
    show (if romanValues d < p then _ else _) + romanRight (ds ++ [c]) (romanValues d) = _
    rw [ih (romanValues d)]
    have hlast : lastValue ds (romanValues d) = lastValue (d :: ds) p := by
      cases ds with
      | nil => rfl
      | cons e es =>
        simp only [lastValue, List.getLast?_cons_cons]
        cases h : (e :: es).getLast? with
        | none => simp at h
        | some x => rfl
    rw [hlast]
    show _ = (if romanValues d < p then _ else _) + romanRight ds (romanValues d) + _
    ring

theorem romanToInt_eq_neighborSpec : ∀ s : List Char,
    romanToInt s = romanNeighborSpec s := by
  have key : ∀ u : List Char, romanRight u.reverse 0 = romanNeighborSpec u := by
    intro u
    induction u with
    | nil => rfl
    | cons c1 rest ih =>
      cases rest with
      | nil => simp [romanNeighborSpec, romanRight, lastValue]
      | cons c2 rest' =>
        have hrev : (c1 :: c2 :: rest').reverse = (c2 :: rest').reverse ++ [c1] := by
          simp
        rw [hrev, romanRight_append, ih]
        have hlast : lastValue (c2 :: rest').reverse 0 = romanValues c2 := by
          unfold lastValue
          rw [List.getLast?_reverse]
          rfl
        rw [hlast]
        show _ = (if romanValues c1 < romanValues c2 then _ else _) + romanNeighborSpec (c2 :: rest')
        ring
  intro s
  rw [romanToInt, romanGo_spec, key]
  ring

theorem findPre_cons (p : List Char → Bool) (c : Char) (cs : List Char) (ls : Bool) :
    findPre p (c :: cs) ls =
      if ls && p (c :: cs) then some []
      else (findPre p cs (c = '\n')).map (c :: ·) := rfl

theorem mergeOpt_none_left (x : Option (List Char)) : mergeOpt none x = x := by
  cases x <;> rfl

theorem mergeOpt_nil_left (x : Option (List Char)) : mergeOpt (some []) x = some [] := by
  cases x with
  | none => rfl
  | some w => simp [mergeOpt]

theorem mergeOpt_cons_nil (x : Option (List Char)) (c : Char) :
    mergeOpt (x.map (c :: ·)) (some []) = some [] := by
  cases x with
  | none => rfl
  | some a => simp [mergeOpt]

theorem mergeOpt_map (c : Char) (x y : Option (List Char)) :
    mergeOpt (x.map (c :: ·)) (y.map (c :: ·)) = (mergeOpt x y).map (c :: ·) := by
  cases x with
  | none => simp [mergeOpt_none_left]
  | some a =>
    cases y with
    | none => rfl
    | some b =>
      by_cases h : a.length ≤ b.length <;>
        simp [mergeOpt, h, Nat.succ_le_succ_iff]

theorem findPre_or (p q : List Char → Bool) :
    ∀ (s : List Char) (ls : Bool),
      findPre (fun u => p u || q u) s ls =
        mergeOpt (findPre p s ls) (findPre q s ls) := by
  intro s
  induction s with
  | nil => intro ls; rfl
  | cons c cs ih =>
    intro ls
    rw [findPre_cons (fun u => p u || q u), findPre_cons p, findPre_cons q]
    cases ls with
    | false =>
      simp only [Bool.false_and, Bool.false_eq_true, if_false]
      rw [ih, mergeOpt_map]
    | true =>
      cases hp : p (c :: cs) with
      | true =>
        simp only [hp, Bool.true_and, Bool.true_or, if_true, mergeOpt_nil_left]
      | false =>
        cases hq : q (c :: cs) with
        | true =>
          simp only [hp, hq, Bool.true_and, Bool.false_or, if_true,
            Bool.false_eq_true, if_false]
          rw [mergeOpt_cons_nil]
        | false =>
          simp only [hp, hq, Bool.true_and, Bool.false_or,
            Bool.false_eq_true, if_false]
          rw [ih, mergeOpt_map]

/-!
### Claim theorems
-/

/-- Claim C1 (code bug): the claim says `extract` is total and treats an
unparsable textual date as a non-match; the code's textual-date branch calls
`datetime(year, month, day)` outside any try/except, so day 31 of February
raises `ValueError` out of `extract`.  The numeric-date branch, by contrast,
does catch the error and falls through to the "unknown" sentinels, which is
the behaviour the claim describes. -/
theorem C1_textual_date_raises :
    (metadataExtract c1raiseText "Без названия".toList).toOption = none ∧
    (metadataExtract c1numText "Без названия".toList).toOption.map
        (fun md => (md.number, md.date)) = some ("N/A".toList, none) := by
  decide

/-- Claim C2 counterexample: a `NPADocument` whose chapter list and top-level
article list are simultaneously non-empty is constructible — the model does
not make that state unrepresentable. -/
theorem C2_both_lists_constructible :
    bothDoc.chapters ≠ [] ∧ bothDoc.articles ≠ [] := by
  decide

/-- Claim C2 (amended): the type permits both collections to be non-empty, but
`ArticleParser.parse` never produces such a pair — one of the two lists of
every parse result is empty. -/
theorem C2_parse_populates_at_most_one (text : List Char) :
    (articleParserParse text).1 = [] ∨ (articleParserParse text).2 = [] := by
  unfold articleParserParse
  by_cases h : hasChapterHeader text
  · rw [if_pos h]
    exact Or.inr rfl
  · rw [if_neg h]
    exact Or.inl rfl

/-- Claim C4 counterexample: on the malformed numeral "IIX" the code yields 10,
while the claimed rule — subtract a symbol whenever some larger-valued symbol
was already seen to its right — yields 8; the code only compares against the
immediately preceding (right-neighbour) symbol. -/
theorem C4_right_context_rule_fails :
    romanToInt "IIX".toList = 10 ∧ romanClaimSpec "IIX".toList = 8 ∧
    romanToInt "IIX".toList ≠ romanClaimSpec "IIX".toList := by
  decide

/-- Claim C4 (amended): `_roman_to_int` scans right to left, accumulating
symbol values and subtracting a symbol's value exactly when the symbol
immediately to its right has a strictly larger value; the representative
values IV → 4, IX → 9, XIV → 14 and MCMXCIX → 1999 hold, and every string
(malformed numerals included) yields an integer. -/
theorem C4_roman_neighbor_rule :
    (∀ s : List Char, romanToInt s = romanNeighborSpec s) ∧
    romanToInt "IV".toList = 4 ∧ romanToInt "IX".toList = 9 ∧
    romanToInt "XIV".toList = 14 ∧ romanToInt "MCMXCIX".toList = 1999 := by
  refine ⟨romanToInt_eq_neighborSpec, ?_, ?_, ?_, ?_⟩ <;> decide

/-- Claim C6: parsing the worked example yields exactly one flat article,
numbered "1", with part 1 "Текст один." (no subparts) and part 2 "Текст два."
whose subparts are exactly the verbatim line "1) под.". -/
theorem C6_worked_example :
    articleParserParse c6text =
      ([], [{ number := "1".toList
              title := "Т".toList
              parts := [⟨1, "Текст один.".toList, []⟩,
                        ⟨2, "Текст два.".toList, ["1) под.".toList]⟩]
              full_text := c6span
              chapter_number := none
              chapter_title := none }]) := by
  decide

/-- Claim C9 counterexample: for a six-line preamble the code does not return
the text preceding the first structural header — it strips it and drops the
first five lines, returning only "f". -/
theorem C9_preamble_postprocessed :
    findPre (fun s => preArticleHere s || preChapterHere s) c9text true =
      some "a\nb\nc\nd\ne\nf\n".toList ∧
    extractPreamble c9text = "f".toList ∧
    "f".toList ≠ "a\nb\nc\nd\ne\nf\n".toList := by
  decide

/-- Claim C9 (amended): `_extract_preamble` equals the single-search reading of
the spec — take the text before the first line-anchored article or
chapter/section header (empty when there is none) and post-process it by
stripping, dropping the first five lines when more than five, and stripping
again. -/
theorem C9_preamble_first_header (text : List Char) :
    extractPreamble text = specPreamble text := by
  unfold extractPreamble specPreamble
  rw [findPre_or]
  cases h1 : findPre preArticleHere text true with
  | none =>
    cases h2 : findPre preChapterHere text true with
    | none => rfl
    | some b => rfl
  | some a =>
    cases h2 : findPre preChapterHere text true with
    | none => rfl
    | some b => rfl

/-- Claim C3: if the chapter search succeeds, `parse` returns a non-empty
chapter list and an empty flat list; if it fails, the chapter list is empty;
and the two lists are never both non-empty. -/
theorem C3_chapter_layout_exclusive (text : List Char) :
    (hasChapterHeader text = true →
      (articleParserParse text).1 ≠ [] ∧ (articleParserParse text).2 = []) ∧
    (hasChapterHeader text = false → (articleParserParse text).1 = []) ∧
    ((articleParserParse text).1 = [] ∨ (articleParserParse text).2 = []) := by
  refine ⟨?_, ?_, ?_⟩
  · intro h
    unfold articleParserParse
    rw [if_pos h]
    refine ⟨?_, rfl⟩
    have hsegs : (scanM tryMatchChapter text).2 ≠ [] := by
      unfold scanM
      exact (findPre_isSome_iff_scanF tryMatchChapter text.length text true
        le_rfl).mp (by unfold hasChapterHeader at h; exact h)
    unfold parseWithChapters
    intro hmap
    exact hsegs (List.map_eq_nil_iff.mp hmap)
  · intro h
    unfold articleParserParse
    rw [if_neg (by simp [h])]
  · unfold articleParserParse
    by_cases h : hasChapterHeader text
    · rw [if_pos h]
      exact Or.inr rfl
    · rw [if_neg h]
      exact Or.inl rfl

/-- Witness for claim C3 at two concrete inputs, one with a chapter header and
one without. -/
theorem C3_chapter_layout_exclusive_witness :
    ((articleParserParse c3chapText).1 ≠ [] ∧ (articleParserParse c3chapText).2 = []) ∧
    (articleParserParse c3flatText).1 = [] :=
  ⟨(C3_chapter_layout_exclusive c3chapText).1 (by decide),
   (C3_chapter_layout_exclusive c3flatText).2.1 (by decide)⟩

/-- Claim C5: every article any parse produces has at least one part, and an
article span in which no line matches the numbered-part pattern yields exactly
one synthetic part, numbered 1, holding the whole span verbatim. -/
theorem C5_article_parts_nonempty :
    (∀ text art, art ∈ docArticles (articleParserParse text) →
      1 ≤ art.parts.length) ∧
    (∀ span, (∀ l ∈ splitLines span, pyPartMatch (pyStrip l) = none) →
      parseArticleParts span = [⟨1, span, []⟩]) := by
  constructor
  · intro text art h
    obtain ⟨t, cn, ct, hmem⟩ := mem_docArticles_parse art text h
    exact List.length_pos.mpr (mem_parseArticlesFromText art t cn ct hmem).2
  · exact fun span h => parseArticleParts_of_nomatch span h

/-- Witness for claim C5: the single article of a concrete parse has a part,
and a patternless span becomes one synthetic part. -/
theorem C5_article_parts_nonempty_witness :
    1 ≤ c5article.parts.length ∧
    parseArticleParts "текст".toList = [⟨1, "текст".toList, []⟩] :=
  ⟨C5_article_parts_nonempty.1 c5text c5article (by decide),
   C5_article_parts_nonempty.2 "текст".toList (by decide)⟩

/-- Claim C7 counterexample: this prefix contains both required substrings,
yet `extract` reports doc_type "УКАЗ", because the doc-type search returns the
first occurrence of any alternative, not the claimed one. -/
theorem C7_earlier_match_wins :
    containsSub "ФЕДЕРАЛЬНЫЙ ЗАКОН".toList c7badText = true ∧
    containsSub "от 5 апреля 2013 г. N 44-ФЗ".toList c7badText = true ∧
    (metadataExtract c7badText "Без названия".toList).toOption.map
        DocumentMetadata.doc_type = some "УКАЗ".toList ∧
    "УКАЗ".toList ≠ "ФЕДЕРАЛЬНЫЙ ЗАКОН".toList := by
  decide

/-- Claim C7 (amended): whenever the first doc-type match of the prefix is
"ФЕДЕРАЛЬНЫЙ ЗАКОН" and the first textual number/date match is
"от 5 апреля 2013 г. N 44-ФЗ", `extract` returns exactly those fields with the
date 2013-04-05; the textual pattern is attempted first and wins. -/
theorem C7_first_match_fields (text fb : List Char)
    (h1 : findFirst (firstAltCI docTypeAlts) text = some "ФЕДЕРАЛЬНЫЙ ЗАКОН".toList)
    (h2 : findFirst matchND1 text = some (5, 4, 2013, "44-ФЗ".toList)) :
    ∃ md, metadataExtract text fb = Except.ok md ∧
      md.doc_type = "ФЕДЕРАЛЬНЫЙ ЗАКОН".toList ∧
      md.number = "44-ФЗ".toList ∧ md.date = some ⟨2013, 4, 5⟩ := by
  have hnd : extractNumberAndDate text =
      Except.ok (some "44-ФЗ".toList, some ⟨2013, 4, 5⟩) := by
    unfold extractNumberAndDate
    rw [h2]
    rfl
  have hdt : extractDocType text = some "ФЕДЕРАЛЬНЫЙ ЗАКОН".toList := by
    unfold extractDocType
    rw [h1]
    rfl
  refine ⟨{ doc_type := "ФЕДЕРАЛЬНЫЙ ЗАКОН".toList
            number := "44-ФЗ".toList
            date := some ⟨2013, 4, 5⟩
            title := (extractTitle text).getD fb
            authority := extractAuthority text
            status := "действующий".toList
            version_date := none
            categories := []
            references := []
            source := "КонсультантПлюс".toList }, ?_, rfl, rfl, rfl⟩
  unfold metadataExtract
  rw [hdt, hnd]
  rfl

/-- Witness for claim C7 at the canonical 44-ФЗ prefix. -/
theorem C7_first_match_fields_witness :
    ∃ md, metadataExtract c7text "Без названия".toList = Except.ok md ∧
      md.doc_type = "ФЕДЕРАЛЬНЫЙ ЗАКОН".toList ∧
      md.number = "44-ФЗ".toList ∧ md.date = some ⟨2013, 4, 5⟩ :=
  C7_first_match_fields c7text "Без названия".toList (by decide) (by decide)

/-- Claim C8: `statistics()` reports the chapter count as the chapter-list
length, the article count as the flat-list length when that list is populated
and the per-chapter sum otherwise, the per-article token estimate as text
length over four, and 2 chapters / 8 articles on the 3-and-5 example. -/
theorem C8_statistics_contract :
    (∀ d, (getStatistics d).chapters = d.chapters.length) ∧
    (∀ d, d.articles ≠ [] → (getStatistics d).articles = d.articles.length) ∧
    (∀ d, d.articles = [] →
      (getStatistics d).articles =
        (d.chapters.map (fun ch => ch.articles.length)).sum) ∧
    (∀ a, getTokenEstimate a =
      (if a.full_text = [] then (a.parts.map (fun p => p.text.length)).sum
       else a.full_text.length) / 4) ∧
    (getStatistics exDoc).chapters = 2 ∧ (getStatistics exDoc).articles = 8 := by
  refine ⟨fun d => rfl, fun d h => ?_, fun d h => ?_, fun a => ?_,
    by decide, by decide⟩
  · simp [getStatistics, h]
  · simp [getStatistics, h]
  · by_cases hft : a.full_text = [] <;> simp [getTokenEstimate, hft]

/-- Witness for claim C8 on the two concrete documents. -/
theorem C8_statistics_contract_witness :
    (getStatistics bothDoc).articles = bothDoc.articles.length ∧
    (getStatistics exDoc).articles =
      (exDoc.chapters.map (fun ch => ch.articles.length)).sum :=
  ⟨C8_statistics_contract.2.1 bothDoc (by decide),
   C8_statistics_contract.2.2.1 exDoc (by decide)⟩

/-- Claim C10 (implicit): non-matching lines before the first numbered-part
line have no effect on the parts output; every parsed article's parts are
recomputable from its own full text (which retains those lines); and only a
span with no part match at all keeps its text inside the single synthetic
part. -/
theorem C10_leading_lines_dropped :
    (∀ pre post, (∀ l ∈ pre, pyPartMatch (pyStrip l) = none) →
      partsLoop (pre ++ post) none = partsLoop post none) ∧
    (∀ text art, art ∈ docArticles (articleParserParse text) →
      art.parts = parseArticleParts art.full_text) ∧
    (∀ span, (∀ l ∈ splitLines span, pyPartMatch (pyStrip l) = none) →
      parseArticleParts span = [⟨1, span, []⟩]) := by
  refine ⟨partsLoop_append_nomatch, ?_, fun span h => parseArticleParts_of_nomatch span h⟩
  intro text art h
  obtain ⟨t, cn, ct, hmem⟩ := mem_docArticles_parse art text h
  exact (mem_parseArticlesFromText art t cn ct hmem).1

/-- Witness for claim C10: a subpart-shaped leading line is dropped, and a
concrete article's parts equal the parts of its full text. -/
theorem C10_leading_lines_dropped_witness :
    partsLoop (["1) под.".toList] ++ ["1. а".toList]) none =
      partsLoop ["1. а".toList] none ∧
    c5article.parts = parseArticleParts c5article.full_text ∧
    parseArticleParts "x".toList = [⟨1, "x".toList, []⟩] :=
  ⟨C10_leading_lines_dropped.1 ["1) под.".toList] ["1. а".toList] (by decide),
   C10_leading_lines_dropped.2.1 c5text c5article (by decide),
   C10_leading_lines_dropped.2.2 "x".toList (by decide)⟩
